import Mathlib

/-!
# Verification of the `condenser` subtitle-audio pipeline

Shallow embedding of the core pipeline of the `condenser` repository:

* cue-interval normalization and merging (`parseSubtitles` in `src/App.tsx`),
* the up-front destination-length computation of the segment extractor
  (`extractAudio` in `src/App.tsx`),
* the RIFF/WAVE PCM encoder (`audioBufferToWav` in the unnamed source file).

JavaScript `number` time values are modelled as exact rationals `ℚ`; the
encoder's per-sample float arithmetic, where NaN and infinities matter, is
modelled by the type `JSNum` below.
-/

namespace Condenser

/-- A subtitle cue / padded interval / dialogue window: the
`{ start: number; end: number }` records of `src/App.tsx`.  Timestamps are in
seconds, modelled as exact rationals. -/
structure Period where
  start : ℚ
  «end» : ℚ
deriving DecidableEq, Repr

/-- Lines 114-118 of `src/App.tsx`:
`periods.map(period => ({ start: Math.max(0, period.start - padding),
end: period.end + padding }))`, with `padding` a parameter (the source fixes
`const padding = 0.5`, see `parseSubtitles` below). -/
def normalize (padding : ℚ) (cues : List Period) : List Period :=
  cues.map fun period =>
    { start := max 0 (period.start - padding), «end» := period.«end» + padding }

/-- Stable insertion of a period into a list already sorted by `start`:
the new element goes after every element with strictly smaller `start` and
before every element whose `start` is not smaller. -/
def insertByStart (p : Period) : List Period → List Period
  | [] => [p]
  | q :: rest => if q.start < p.start then q :: insertByStart p rest else p :: q :: rest

/-- Line 122 of `src/App.tsx`: `periods.sort((a, b) => a.start - b.start)`.
`Array.prototype.sort` is a stable sort; it is modelled by a stable insertion
sort keyed on `start`. -/
def sortByStart : List Period → List Period
  | [] => []
  | p :: rest => insertByStart p (sortByStart rest)

/-- Lines 124-134 of `src/App.tsx`, the merge loop:

```
for (let i = 0; i < periods.length; i++) {
    const first = periods[i]
    const second = periods[i+1]
    if ((first.end + 3) >= second.start) {
        mergedPeriods.push({ start: first.start, end: second.end })
    }
}
```

On the last iteration `periods[i+1]` is `undefined` and `second.start` throws
a `TypeError`; the fault is modelled as `none`.  `acc` holds the pushed
periods in reverse order. -/
def mergeLoop (acc : List Period) : List Period → Option (List Period)
  | [] => some acc.reverse
  | [_] => none
  | first :: second :: rest =>
      mergeLoop
        (if first.«end» + 3 ≥ second.start
          then { start := first.start, «end» := second.«end» } :: acc
          else acc)
        (second :: rest)

/-- Lines 120-136 of `src/App.tsx`: sort, then run the merge loop on the
sorted periods, returning `mergedPeriods` (or the propagated fault). -/
def merge (periods : List Period) : Option (List Period) :=
  mergeLoop [] (sortByStart periods)

/-- Lines 114-136 of `src/App.tsx` (`parseSubtitles` after the external
subtitle parser produced the cue list): pad with the hard-coded
`padding = 0.5`, then sort and merge. -/
def parseSubtitles (cues : List Period) : Option (List Period) :=
  merge (normalize (1/2) cues)

/-- Line 144 of `src/App.tsx`:
`subtitles.reduce((total, sub) => total + (sub.end - sub.start), 0)`. -/
def totalDialogueDuration (subtitles : List Period) : ℚ :=
  subtitles.foldl (fun total sub => total + (sub.«end» - sub.start)) 0

/-- Lines 146-150 of `src/App.tsx`: the second constructor argument of the
`OfflineAudioContext`, i.e. the destination buffer's sample length
`Math.ceil(totalDialogueDuration * audioBuffer.sampleRate)`, computed once
before the copy loop runs. -/
def offlineContextLength (sampleRate : ℕ) (subtitles : List Period) : ℤ :=
  ⌈totalDialogueDuration subtitles * (sampleRate : ℚ)⌉

/-! ## A model of JavaScript numbers for the encoder

The encoder's per-sample arithmetic must be total over NaN and the
infinities, so samples are modelled by `JSNum`: NaN, the two infinities, or a
finite value (an exact rational; the rounding of finite double arithmetic is
immaterial at the granularity of the claims below). -/

/-- A JavaScript `number` as seen by the encoder's sample loop. -/
inductive JSNum where
  | nan : JSNum
  | inf : JSNum
  | neginf : JSNum
  | fin (q : ℚ) : JSNum
deriving DecidableEq, Repr

/-- Two-argument `Math.min`: NaN-propagating minimum. -/
def jsMin : JSNum → JSNum → JSNum
  | .nan, _ => .nan
  | _, .nan => .nan
  | .neginf, _ => .neginf
  | _, .neginf => .neginf
  | .inf, b => b
  | a, .inf => a
  | .fin a, .fin b => .fin (min a b)

/-- Two-argument `Math.max`: NaN-propagating maximum. -/
def jsMax : JSNum → JSNum → JSNum
  | .nan, _ => .nan
  | _, .nan => .nan
  | .inf, _ => .inf
  | _, .inf => .inf
  | .neginf, b => b
  | a, .neginf => a
  | .fin a, .fin b => .fin (max a b)

/-- JavaScript `+` on numbers (NaN propagates, opposite infinities give NaN). -/
def jsAdd : JSNum → JSNum → JSNum
  | .nan, _ => .nan
  | _, .nan => .nan
  | .inf, .neginf => .nan
  | .neginf, .inf => .nan
  | .inf, _ => .inf
  | _, .inf => .inf
  | .neginf, _ => .neginf
  | _, .neginf => .neginf
  | .fin a, .fin b => .fin (a + b)

/-- JavaScript `*` on numbers (NaN propagates, `±∞ * 0 = NaN`, signs of
infinite products follow the finite factor's sign). -/
def jsMul : JSNum → JSNum → JSNum
  | .nan, _ => .nan
  | _, .nan => .nan
  | .inf, .inf => .inf
  | .inf, .neginf => .neginf
  | .neginf, .inf => .neginf
  | .neginf, .neginf => .inf
  | .inf, .fin b => if b = 0 then .nan else if 0 < b then .inf else .neginf
  | .fin a, .inf => if a = 0 then .nan else if 0 < a then .inf else .neginf
  | .neginf, .fin b => if b = 0 then .nan else if 0 < b then .neginf else .inf
  | .fin a, .neginf => if a = 0 then .nan else if 0 < a then .neginf else .inf
  | .fin a, .fin b => .fin (a * b)

/-- JavaScript `<` on numbers: any comparison with NaN is `false`. -/
def jsLt : JSNum → JSNum → Bool
  | .nan, _ => false
  | _, .nan => false
  | .neginf, .neginf => false
  | .neginf, _ => true
  | _, .neginf => false
  | .inf, _ => false
  | _, .inf => true
  | .fin a, .fin b => decide (a < b)

/-- Truncation toward zero of a rational (the integer part taken by
`ToInt32`). -/
def jsTrunc (q : ℚ) : ℤ := if 0 ≤ q then ⌊q⌋ else -⌊-q⌋

/-- Wrap an integer into the signed 32-bit range, as `ToInt32` does after
truncation. -/
def wrap32 (t : ℤ) : ℤ := (t + 2 ^ 31) % 2 ^ 32 - 2 ^ 31

/-- JavaScript `x | 0` (`ToInt32`): NaN and the infinities go to `0`; a
finite value is truncated toward zero and wrapped into 32 bits. -/
def jsToInt32 : JSNum → ℤ
  | .fin q => wrap32 (jsTrunc q)
  | _ => 0

/-! ## The encoder (`audioBufferToWav` in the unnamed source file) -/

/-- The slice of the `AudioBuffer` interface the encoder reads:
`numberOfChannels`, `sampleRate`, `length` (frames per channel) and the
per-channel sample arrays returned by `getChannelData`. -/
structure AudioBuffer where
  numberOfChannels : ℕ
  sampleRate : ℕ
  length : ℕ
  channelData : List (List JSNum)
deriving DecidableEq, Repr

/-- Reading `channels[i][offset]`: reading past an array's end yields
`undefined`, which the subsequent `Math.min` coerces to NaN. -/
def sampleAt (buffer : AudioBuffer) (i offset : ℕ) : JSNum :=
  (buffer.channelData.getD i []).getD offset JSNum.nan

/-- The 4 bytes written by `setUint32(data)` (little-endian; byte `k` is bit
field `8k..8k+7` of `data mod 2^32`). -/
def u32bytes (n : ℕ) : List ℕ :=
  [n % 256, n / 256 % 256, n / 2 ^ 16 % 256, n / 2 ^ 24 % 256]

/-- The 2 bytes written by `setUint16(data)` (little-endian). -/
def u16bytes (n : ℕ) : List ℕ := [n % 256, n / 256 % 256]

/-- The 2 bytes written by `view.setInt16(pos, sample, true)`: the low 16
bits of the (already 32-bit) integer sample, little-endian. -/
def i16bytes (s : ℤ) : List ℕ := [(s % 65536).toNat % 256, (s % 65536).toNat / 256]

/-- Line 108 of the unnamed source file:
`sample = Math.max(-1, Math.min(1, channels[i][offset]))`. -/
def clampSample (x : JSNum) : JSNum :=
  jsMax (JSNum.fin (-1)) (jsMin (JSNum.fin 1) x)

/-- Line 109 of the unnamed source file:
`sample = (0.5 + sample < 0 ? sample * 32768 : sample * 32767)|0`.
Note the condition parses as `(0.5 + sample) < 0`, i.e. `sample < -0.5`. -/
def scaleSample (sample : JSNum) : ℤ :=
  if jsLt (jsAdd (JSNum.fin (1/2)) sample) (JSNum.fin 0)
    then jsToInt32 (jsMul sample (JSNum.fin 32768))
    else jsToInt32 (jsMul sample (JSNum.fin 32767))

/-- Lines 108-110: the full clamp-scale-truncate conversion of one float
sample to the 16-bit integer that is written. -/
def convertSample (x : JSNum) : ℤ := scaleSample (clampSample x)

/-- Lines 85-100 of the unnamed source file, the 44-byte header.  `length`
is `buffer.length * numOfChan * 2 + 44` (line 77); at the `setUint32` of the
data-chunk size (line 100) `pos` is 40, so the value written is
`length - 40 - 4`. -/
def wavHeaderBytes (buffer : AudioBuffer) : List ℕ :=
  let numOfChan := buffer.numberOfChannels
  let length := buffer.length * numOfChan * 2 + 44
  u32bytes 0x46464952 ++
  u32bytes (length - 8) ++
  u32bytes 0x45564157 ++
  u32bytes 0x20746d66 ++
  u32bytes 16 ++
  u16bytes 1 ++
  u16bytes numOfChan ++
  u32bytes buffer.sampleRate ++
  u32bytes (buffer.sampleRate * 2 * numOfChan) ++
  u16bytes (numOfChan * 2) ++
  u16bytes 16 ++
  u32bytes 0x61746164 ++
  u32bytes (length - 40 - 4)

/-- Lines 106-114, the interleaved data loop.  The `while (pos < length)`
loop starts at `pos = 44` and advances `pos` by `2 * numOfChan` per frame
(and exits immediately when `numOfChan = 0`, since then `length = 44`), so it
processes exactly `buffer.length` frames; for each frame it writes the
converted sample of every channel in order. -/
def wavDataBytes (buffer : AudioBuffer) : List ℕ :=
  (List.range buffer.length).flatMap fun offset =>
    (List.range buffer.numberOfChannels).flatMap fun i =>
      i16bytes (convertSample (sampleAt buffer i offset))

/-- Lines 75-128: the encoder's output byte sequence, header then data. -/
def audioBufferToWav (buffer : AudioBuffer) : List ℕ :=
  wavHeaderBytes buffer ++ wavDataBytes buffer

/-! ## Spec-side definitions (for refinement-style claims) -/

/-- The header layout exactly as the specification words it: ASCII `"RIFF"`,
`chunkSize = totalBytes - 8`, ASCII `"WAVE"`, ASCII `"fmt "`,
`subchunk1Size = 16`, `audioFormat = 1`, `numChannels`, `sampleRate`,
`byteRate = sampleRate * numChannels * 2`, `blockAlign = numChannels * 2`,
`bitsPerSample = 16`, ASCII `"data"`, `dataSize = totalBytes - 44`, all
little-endian. -/
def specHeader (numChannels sampleRate totalBytes : ℕ) : List ℕ :=
  [0x52, 0x49, 0x46, 0x46] ++
  u32bytes (totalBytes - 8) ++
  [0x57, 0x41, 0x56, 0x45] ++
  [0x66, 0x6d, 0x74, 0x20] ++
  u32bytes 16 ++
  u16bytes 1 ++
  u16bytes numChannels ++
  u32bytes sampleRate ++
  u32bytes (sampleRate * numChannels * 2) ++
  u16bytes (numChannels * 2) ++
  u16bytes 16 ++
  [0x64, 0x61, 0x74, 0x61] ++
  u32bytes (totalBytes - 44)

/-- The sample conversion exactly as the specification (and claim C5) words
it: clamp to `[-1, 1]`, then multiply negative values by `32768` and
non-negative values by `32767`, truncating to an integer. -/
def specConvert (q : ℚ) : ℤ :=
  let c := max (-1) (min 1 q)
  if c < 0 then jsTrunc (c * 32768) else jsTrunc (c * 32767)

/-! ## Basic lemmas about the merge loop and the sort -/

/-- The merge loop faults on every non-empty list: it always reaches the last
index, where `periods[i+1]` is `undefined`. -/
theorem mergeLoop_eq_none (l : List Period) (h : l ≠ []) (acc : List Period) :
    mergeLoop acc l = none := by
  induction l generalizing acc with
  | nil => exact absurd rfl h
  | cons first rest ih =>
      cases rest with
      | nil => rfl
      | cons second rest' =>
          simpa [mergeLoop] using ih (by simp) _

/-- The merge loop completes only on the empty list, and then returns the
accumulator (reversed). -/
theorem mergeLoop_eq_some {l acc out : List Period}
    (h : mergeLoop acc l = some out) : l = [] ∧ out = acc.reverse := by
  cases l with
  | nil => exact ⟨rfl, by simpa [mergeLoop] using h.symm⟩
  | cons first rest => simp [mergeLoop_eq_none (first :: rest) (by simp) acc] at h

theorem length_insertByStart (p : Period) (l : List Period) :
    (insertByStart p l).length = l.length + 1 := by
  induction l with
  | nil => rfl
  | cons q rest ih => by_cases h : q.start < p.start <;> simp [insertByStart, h, ih]

theorem length_sortByStart (l : List Period) :
    (sortByStart l).length = l.length := by
  induction l with
  | nil => rfl
  | cons p rest ih => simp [sortByStart, length_insertByStart, ih]

/-- `sortByStart` sends only the empty list to the empty list. -/
theorem sortByStart_eq_nil {l : List Period} (h : sortByStart l = []) : l = [] := by
  have := length_sortByStart l
  rw [h] at this
  exact List.length_eq_zero.mp this.symm

/-- `merge` completes only on the empty input, with empty output. -/
theorem merge_eq_some {l out : List Period} (h : merge l = some out) :
    l = [] ∧ out = [] := by
  obtain ⟨hs, hout⟩ := mergeLoop_eq_some h
  exact ⟨sortByStart_eq_nil hs, by simpa using hout⟩

/-! ## Lemmas about the numeric model -/

/-- Truncation toward zero lies between floor and ceiling. -/
theorem floor_le_jsTrunc_le_ceil (q : ℚ) : ⌊q⌋ ≤ jsTrunc q ∧ jsTrunc q ≤ ⌈q⌉ := by
  unfold jsTrunc
  split
  · exact ⟨le_refl _, Int.floor_le_ceil q⟩
  · rw [show -⌊-q⌋ = ⌈q⌉ by rw [← Int.ceil_neg, neg_neg]]
    exact ⟨Int.floor_le_ceil q, le_refl _⟩

/-- Integer bounds on a rational transfer to its truncation toward zero. -/
theorem jsTrunc_bounds {q : ℚ} {lo hi : ℤ} (hlo : (lo : ℚ) ≤ q) (hhi : q ≤ (hi : ℚ)) :
    lo ≤ jsTrunc q ∧ jsTrunc q ≤ hi := by
  obtain ⟨h1, h2⟩ := floor_le_jsTrunc_le_ceil q
  exact ⟨le_trans (Int.le_floor.mpr hlo) h1, le_trans h2 (Int.ceil_le.mpr hhi)⟩

/-- `ToInt32` wrapping is the identity on the signed 32-bit range. -/
theorem wrap32_id {t : ℤ} (h1 : -(2 ^ 31) ≤ t) (h2 : t < 2 ^ 31) : wrap32 t = t := by
  unfold wrap32
  omega

/-- Clamping a finite sample is the rational clamp to `[-1, 1]`. -/
theorem clampSample_fin (q : ℚ) :
    clampSample (JSNum.fin q) = JSNum.fin (max (-1) (min 1 q)) := rfl

/-- What lines 108-110 compute on a finite sample: the clamped value `c` is
scaled by `32768` exactly when `0.5 + c < 0`, i.e. when `c < -0.5`, else by
`32767`, then truncated toward zero (the 32-bit wrap is the identity because
`|c| ≤ 1`). -/
theorem convertSample_fin (q : ℚ) :
    convertSample (JSNum.fin q) =
      if max (-1) (min 1 q) < -(1 / 2)
        then jsTrunc (max (-1) (min 1 q) * 32768)
        else jsTrunc (max (-1) (min 1 q) * 32767) := by
  rw [convertSample, clampSample_fin]
  set c := max (-1) (min 1 q) with hc
  have hc1 : -1 ≤ c := le_max_left _ _
  have hc2 : c ≤ 1 := max_le (by norm_num) (min_le_left _ _)
  have hcond : jsLt (jsAdd (JSNum.fin (1 / 2)) (JSNum.fin c)) (JSNum.fin 0)
      = decide (c < -(1 / 2)) := by
    simp only [jsAdd, jsLt, decide_eq_decide]
    constructor <;> intro <;> linarith
  rw [scaleSample, hcond]
  simp only [decide_eq_true_eq, jsMul, jsToInt32]
  by_cases h : c < -(1 / 2)
  · rw [if_pos h, if_pos h]
    have hbound : -(2 ^ 31) ≤ jsTrunc (c * 32768) ∧ jsTrunc (c * 32768) ≤ 2 ^ 31 - 1 :=
      jsTrunc_bounds (by push_cast; nlinarith) (by push_cast; nlinarith)
    exact wrap32_id hbound.1 (by omega)
  · rw [if_neg h, if_neg h]
    have hbound : -(2 ^ 31) ≤ jsTrunc (c * 32767) ∧ jsTrunc (c * 32767) ≤ 2 ^ 31 - 1 :=
      jsTrunc_bounds (by push_cast; nlinarith) (by push_cast; nlinarith)
    exact wrap32_id hbound.1 (by omega)

/-- Bounds on a finite converted sample. -/
theorem convertSample_fin_bounds (q : ℚ) :
    -32768 ≤ convertSample (JSNum.fin q) ∧ convertSample (JSNum.fin q) ≤ 32767 := by
  rw [convertSample_fin]
  set c := max (-1) (min 1 q) with hc
  have hc1 : -1 ≤ c := le_max_left _ _
  have hc2 : c ≤ 1 := max_le (by norm_num) (min_le_left _ _)
  by_cases h : c < -(1 / 2)
  · simp only [h, if_true]
    exact jsTrunc_bounds (by push_cast; nlinarith) (by push_cast; nlinarith)
  · push_neg at h
    simp only [not_lt.mpr h, if_false]
    exact jsTrunc_bounds (by push_cast; nlinarith) (by push_cast; nlinarith)

/-! ## Lemmas about the encoder and the extractor length -/

/-- The header is exactly the 44 bytes the specification lists (the code's
`byteRate` operand order and its `length - pos - 4` data-size arithmetic
rewrite to the specification's expressions). -/
theorem wavHeaderBytes_eq_specHeader (buffer : AudioBuffer) :
    wavHeaderBytes buffer =
      specHeader buffer.numberOfChannels buffer.sampleRate
        (buffer.length * buffer.numberOfChannels * 2 + 44) := by
  unfold wavHeaderBytes specHeader
  norm_num [u32bytes, u16bytes, Nat.sub_sub, mul_right_comm]

theorem length_wavHeaderBytes (buffer : AudioBuffer) :
    (wavHeaderBytes buffer).length = 44 := by
  simp [wavHeaderBytes, u32bytes, u16bytes]

/-- The source's `reduce` of durations is the sum of durations. -/
theorem foldl_duration (l : List Period) (a : ℚ) :
    l.foldl (fun total sub => total + (sub.«end» - sub.start)) a
      = a + (l.map fun sub => sub.«end» - sub.start).sum := by
  induction l generalizing a with
  | nil => simp
  | cons s rest ih => simp [List.foldl_cons, ih, add_assoc]

theorem totalDialogueDuration_eq_sum (subtitles : List Period) :
    totalDialogueDuration subtitles
      = (subtitles.map fun sub => sub.«end» - sub.start).sum := by
  rw [totalDialogueDuration, foldl_duration, zero_add]

/-! ## The claims -/

/-- C1: on cues `[(1.0,2.0), (2.3,3.0), (10.0,11.0)]` with padding `0.5`, the
normalizer does produce `[(0.5,2.5), (1.8,3.5), (9.5,11.5)]`, but the merge
loop then faults (it reads `periods[3]`, which is `undefined`, and
dereferences `.start`), so the pipeline does NOT return
`[(0.5,3.5), (9.5,11.5)]`: the claimed fault-free merged result is refuted. -/
theorem C1_scenarioA_pipeline_faults :
    normalize (1 / 2) [⟨1, 2⟩, ⟨23 / 10, 3⟩, ⟨10, 11⟩]
      = [⟨1 / 2, 5 / 2⟩, ⟨9 / 5, 7 / 2⟩, ⟨19 / 2, 23 / 2⟩] ∧
    parseSubtitles [⟨1, 2⟩, ⟨23 / 10, 3⟩, ⟨10, 11⟩] = none := by
  constructor
  · norm_num [normalize, Period.mk.injEq]
  · norm_num [parseSubtitles, merge, normalize, sortByStart, insertByStart, mergeLoop]

/-- C2: whenever the merge loop completes (which happens exactly on the empty
input), its output is sorted ascending by `start` and pairwise strictly
disjoint (`w1.end < w2.start` for any two windows in order). -/
theorem C2_merge_output_sorted_disjoint (l out : List Period)
    (h : merge l = some out) :
    List.Pairwise (fun w1 w2 => w1.start ≤ w2.start) out ∧
    List.Pairwise (fun w1 w2 => w1.«end» < w2.start) out := by
  obtain ⟨-, rfl⟩ := merge_eq_some h
  exact ⟨List.Pairwise.nil, List.Pairwise.nil⟩

/-- C2 witness: the hypothesis is satisfiable — `merge [] = some []` — and
the theorem applies there. -/
theorem C2_merge_output_sorted_disjoint_witness :
    merge [] = some [] ∧
    (List.Pairwise (fun w1 w2 => w1.start ≤ w2.start) ([] : List Period) ∧
     List.Pairwise (fun w1 w2 => w1.«end» < w2.start) ([] : List Period)) :=
  ⟨rfl, C2_merge_output_sorted_disjoint [] [] rfl⟩

/-- C3: refuted as stated — on the single input interval `(0, 1)` the merge
loop faults (out-of-bounds read of `periods[1]`), so no output window covers
the points of `(0, 1)` that the input covers; coverage is not preserved
because there is no output at all. -/
theorem C3_merge_faults_dropping_coverage :
    merge [{ start := 0, «end» := 1 }] = none ∧
    ∀ out : List Period, merge [{ start := 0, «end» := 1 }] = some out → False := by
  refine ⟨?_, ?_⟩
  · simp [merge, sortByStart, insertByStart, mergeLoop]
  · intro out h
    obtain ⟨h1, -⟩ := merge_eq_some h
    simp at h1

/-- C4: the empty cue list flows through the whole pipeline without fault:
`parseSubtitles [] = some []`, the extractor's destination length for zero
windows is `0`, and the encoder applied to a zero-length buffer emits exactly
the valid 44-byte RIFF/WAVE header of the specification with
`dataSize = 0` (bytes 40-43 are zero). -/
theorem C4_empty_input_yields_bare_header (nc sr : ℕ) (chans : List (List JSNum)) :
    parseSubtitles [] = some [] ∧
    offlineContextLength sr [] = 0 ∧
    audioBufferToWav (⟨nc, sr, 0, chans⟩ : AudioBuffer) = specHeader nc sr 44 ∧
    (audioBufferToWav (⟨nc, sr, 0, chans⟩ : AudioBuffer)).length = 44 ∧
    List.drop 40 (audioBufferToWav (⟨nc, sr, 0, chans⟩ : AudioBuffer))
      = [0, 0, 0, 0] := by
  have hdata : wavDataBytes (⟨nc, sr, 0, chans⟩ : AudioBuffer) = [] := by
    simp [wavDataBytes]
  have hheader := wavHeaderBytes_eq_specHeader (⟨nc, sr, 0, chans⟩ : AudioBuffer)
  simp only [audioBufferToWav, hdata, List.append_nil]
  refine ⟨rfl, by simp [offlineContextLength, totalDialogueDuration], ?_, ?_, ?_⟩
  · simpa using hheader
  · rw [length_wavHeaderBytes]
  · rw [hheader]
    norm_num [specHeader, u32bytes, u16bytes]

/-- C5 counterexample: the claim's asymmetric scale (negative clamped values
times `32768`) fails at sample value `-0.25`: the clamped value `-0.25` is
negative, the claim predicts `trunc(-0.25 * 32768) = -8192`, but the code's
condition `0.5 + sample < 0` sends `-0.25` through the `32767` branch,
producing `-8191`. -/
theorem C5_asymmetric_scale_counterexample :
    convertSample (JSNum.fin (-(1 / 4))) = -8191 ∧
    specConvert (-(1 / 4)) = -8192 ∧
    convertSample (JSNum.fin (-(1 / 4))) ≠ specConvert (-(1 / 4)) := by
  have h1 : convertSample (JSNum.fin (-(1 / 4))) = -8191 := by
    norm_num [convertSample, clampSample, scaleSample, jsMin, jsMax, jsAdd, jsMul,
      jsLt, jsToInt32, jsTrunc, wrap32]
  have h2 : specConvert (-(1 / 4)) = -8192 := by
    norm_num [specConvert, jsTrunc]
  exact ⟨h1, h2, by rw [h1, h2]; norm_num⟩

/-- C5 amended: every float sample is clamped to `[-1, 1]`; the clamped value
is multiplied by `32768` when it is below `-0.5` and by `32767` otherwise
(the code's ternary condition `0.5 + sample < 0`), then truncated toward zero
and written as a signed 16-bit integer; in particular `1.5` encodes to
`32767` and `-1.5` to `-32768`. -/
theorem C5_clamp_then_asymmetric_scale :
    (∀ q : ℚ, convertSample (JSNum.fin q) =
      if max (-1) (min 1 q) < -(1 / 2)
        then jsTrunc (max (-1) (min 1 q) * 32768)
        else jsTrunc (max (-1) (min 1 q) * 32767)) ∧
    convertSample (JSNum.fin (3 / 2)) = 32767 ∧
    convertSample (JSNum.fin (-(3 / 2))) = -32768 := by
  refine ⟨convertSample_fin, ?_, ?_⟩ <;>
    norm_num [convertSample, clampSample, scaleSample, jsMin, jsMax, jsAdd, jsMul,
      jsLt, jsToInt32, jsTrunc, wrap32]

/-- C6: for every input buffer the encoder's output begins with the fixed
44-byte little-endian header of the specification: `"RIFF"`,
`chunkSize = totalBytes - 8`, `"WAVE"`, `"fmt "`, `subchunk1Size = 16`,
`audioFormat = 1`, `numChannels`, `sampleRate`,
`byteRate = sampleRate * numChannels * 2`, `blockAlign = numChannels * 2`,
`bitsPerSample = 16`, `"data"`, `dataSize = totalBytes - 44`, where
`totalBytes = frames * numChannels * 2 + 44`. -/
theorem C6_header_layout (buffer : AudioBuffer) :
    List.take 44 (audioBufferToWav buffer) =
      specHeader buffer.numberOfChannels buffer.sampleRate
        (buffer.length * buffer.numberOfChannels * 2 + 44) := by
  rw [audioBufferToWav, ← wavHeaderBytes_eq_specHeader,
    ← length_wavHeaderBytes buffer, List.take_left]

/-- C7: for every cue list and padding `≥ 0`, the normalizer emits exactly
one interval per cue in input order, equal to
`{start: max(0, cue.start - padding), end: cue.end + padding}`; every emitted
start is `≥ 0` and the output length equals the input length. -/
theorem C7_normalize_shape (cues : List Period) (padding : ℚ) (_h : 0 ≤ padding) :
    normalize padding cues = cues.map (fun cue =>
      { start := max 0 (cue.start - padding), «end» := cue.«end» + padding }) ∧
    (∀ p ∈ normalize padding cues, 0 ≤ p.start) ∧
    (normalize padding cues).length = cues.length := by
  refine ⟨rfl, ?_, by simp [normalize]⟩
  intro p hp
  simp only [normalize, List.mem_map] at hp
  obtain ⟨cue, -, rfl⟩ := hp
  exact le_max_left _ _

/-- C7 witness: the theorem applied at one cue and padding `0.5`. -/
theorem C7_normalize_shape_witness :
    (0 : ℚ) ≤ 1 / 2 ∧
    (normalize (1 / 2) [(⟨1, 2⟩ : Period)]
        = ([(⟨1, 2⟩ : Period)]).map (fun cue =>
          { start := max 0 (cue.start - (1 / 2)), «end» := cue.«end» + 1 / 2 }) ∧
     (∀ p ∈ normalize (1 / 2) [(⟨1, 2⟩ : Period)], 0 ≤ p.start) ∧
     (normalize (1 / 2) [(⟨1, 2⟩ : Period)]).length = [(⟨1, 2⟩ : Period)].length) :=
  ⟨by norm_num, C7_normalize_shape [⟨1, 2⟩] (1 / 2) (by norm_num)⟩

/-- C8: the destination sample length passed to the one-time
`OfflineAudioContext` allocation equals
`ceil(sampleRate * Σ (window.end - window.start))` over all windows. -/
theorem C8_extractor_allocation_length (sampleRate : ℕ) (windows : List Period) :
    offlineContextLength sampleRate windows =
      ⌈(sampleRate : ℚ) * (windows.map fun w => w.«end» - w.start).sum⌉ := by
  rw [offlineContextLength, totalDialogueDuration_eq_sum, mul_comm]

/-- C9: a cue list containing a malformed cue (`end ≤ start`) is propagated
as a rejected input (the pipeline faults, returning no value), and no
completed pipeline run ever puts a negative-duration window in its output
(the only completed run is the empty one, with empty output). -/
theorem C9_malformed_cue_rejected (cues : List Period)
    (h : ∃ c ∈ cues, c.«end» ≤ c.start) :
    parseSubtitles cues = none ∧
    ∀ (l out : List Period), parseSubtitles l = some out →
      ∀ w ∈ out, w.start ≤ w.«end» := by
  constructor
  · obtain ⟨c, hc, -⟩ := h
    have hne : cues ≠ [] := by rintro rfl; exact absurd hc (List.not_mem_nil c)
    rw [parseSubtitles, merge]
    apply mergeLoop_eq_none
    intro hnil
    have hlen := length_sortByStart (normalize (1 / 2) cues)
    rw [hnil] at hlen
    simp only [List.length_nil, normalize, List.length_map] at hlen
    exact hne (List.length_eq_zero.mp hlen.symm)
  · intro l out hl
    obtain ⟨-, rfl⟩ := merge_eq_some hl
    intro w hw
    exact absurd hw (List.not_mem_nil w)

/-- C9 witness: the malformed cue `(2, 1)` (end ≤ start) is rejected. -/
theorem C9_malformed_cue_rejected_witness :
    (∃ c ∈ [({ start := 2, «end» := 1 } : Period)], c.«end» ≤ c.start) ∧
    parseSubtitles [{ start := 2, «end» := 1 }] = none := by
  have h : ∃ c ∈ [({ start := 2, «end» := 1 } : Period)], c.«end» ≤ c.start :=
    ⟨⟨2, 1⟩, List.mem_singleton.mpr rfl, by norm_num⟩
  exact ⟨h, (C9_malformed_cue_rejected [⟨2, 1⟩] h).1⟩

/-- C10: the sample conversion is total: for every sample — finite (also
outside `[-1, 1]`), infinite, or NaN — the produced integer lies in
`[-32768, 32767]`, and NaN converts to `0`. -/
theorem C10_conversion_total_in_range :
    (∀ x : JSNum, -32768 ≤ convertSample x ∧ convertSample x ≤ 32767) ∧
    convertSample JSNum.nan = 0 := by
  refine ⟨?_, rfl⟩
  intro x
  cases x with
  | nan => constructor <;> norm_num [convertSample, clampSample, scaleSample,
      jsMin, jsMax, jsAdd, jsMul, jsLt, jsToInt32]
  | inf => constructor <;> norm_num [convertSample, clampSample, scaleSample,
      jsMin, jsMax, jsAdd, jsMul, jsLt, jsToInt32, jsTrunc, wrap32]
  | neginf => constructor <;> norm_num [convertSample, clampSample, scaleSample,
      jsMin, jsMax, jsAdd, jsMul, jsLt, jsToInt32, jsTrunc, wrap32]
  | fin q => exact convertSample_fin_bounds q

end Condenser
